import Mathlib

/-
Verification of the georeferenced quad-tree mosaic generator
(image2qtree): a shallow embedding of the geometric bookkeeping in
do_mosaic, make_input_georef and Options.validate, together with
theorems settling the specification claims.

Machine integers are modelled as Int (all quantities involved stay far
below 2^31, so C++ int arithmetic is exact); C++ integer division `/`
is truncation toward zero, modelled by Int.tdiv.  Floating-point
subexpressions that compute integer values are modelled by the exact
integer function they implement on the relevant range:
  - (int)(log((double)m)/log(2.)) equals Nat.log2 m for 1 <= m < 2^20
    (the double computation was checked to agree with floor(log2 m)
    over that whole range);
  - (int)std::floor(double(a)/b) and (int)std::ceil(double(a)/b) for
    ints |a|,b < 2^31, b > 0 equal the floor and ceiling of the exact
    rational a/b (the double quotient is close enough to the exact one
    that floor and ceil agree), modelled with Int.ediv.
-/

namespace Image2Qtree

/-- Output profile, from VW_DEFINE_ENUM(Mode, 8, (NONE, KML, TMS,
UNIVIEW, GMAP, CELESTIA, GIGAPAN, GIGAPAN_NOPROJ)). -/
inductive Mode where
  | none
  | kml
  | tms
  | uniview
  | gmap
  | celestia
  | gigapan
  | gigapanNoproj
deriving DecidableEq, Repr

/-- Datum override, from VW_DEFINE_ENUM(DatumOverride, 5, (NONE, WGS84,
LUNAR, MARS, SPHERE)). -/
inductive DatumOverride where
  | none
  | wgs84
  | lunar
  | mars
  | sphere
deriving DecidableEq, Repr

/-- Integer pixel rectangle, modelling vw::BBox2i: min corner inclusive,
max corner exclusive. -/
structure BBoxI where
  minx : Int
  miny : Int
  maxx : Int
  maxy : Int
deriving DecidableEq, Repr

/-- Width of a BBox2i: max().x() - min().x(). -/
def BBoxI.width (b : BBoxI) : Int := b.maxx - b.minx

/-- Height of a BBox2i: max().y() - min().y(). -/
def BBoxI.height (b : BBoxI) : Int := b.maxy - b.miny

/-- The BBox2i(x, y, w, h) constructor: min corner (x, y), size (w, h). -/
def BBoxI.mk4 (x y w h : Int) : BBoxI := ⟨x, y, x + w, y + h⟩

/-- vw::BBox::contains(BBox): the other box lies entirely inside this one. -/
def BBoxI.contains (a b : BBoxI) : Bool :=
  decide (a.minx ≤ b.minx) && decide (b.maxx ≤ a.maxx) &&
  decide (a.miny ≤ b.miny) && decide (b.maxy ≤ a.maxy)

/-- vw::BBox::crop(BBox): intersect this box with the other. -/
def BBoxI.crop (a b : BBoxI) : BBoxI :=
  ⟨max a.minx b.minx, max a.miny b.miny, min a.maxx b.maxx, min a.maxy b.maxy⟩

/-- vw::BBox::grow(BBox): expand this box to cover the other. -/
def BBoxI.grow (a b : BBoxI) : BBoxI :=
  ⟨min a.minx b.minx, min a.miny b.miny, max a.maxx b.maxx, max a.maxy b.maxy⟩

/-- Shift a box by (dx, dy). -/
def BBoxI.translate (b : BBoxI) (dx dy : Int) : BBoxI :=
  ⟨b.minx + dx, b.miny + dy, b.maxx + dx, b.maxy + dy⟩

/-- MosaicComposer insertion step, from do_mosaic: given the transformed
bounding box of one source, the list of composite insertion positions,
in program order.  An insertion shifted left by total_resolution happens
when bbox.max().x() > total_resolution; a normal insertion happens when
bbox.min().x() < xresolution. -/
def insertions (total_resolution xresolution : Int) (bbox : BBoxI) : List (Int × Int) :=
  (if total_resolution < bbox.maxx then [(bbox.minx - total_resolution, bbox.miny)] else []) ++
  (if bbox.minx < xresolution then [(bbox.minx, bbox.miny)] else [])

/-- Fuel-based floor base-2 logarithm; structural recursion so it
reduces in the kernel.  Agrees with Nat.log2 when fuel is at least n. -/
def log2floorAux : Nat → Nat → Nat
  | 0, _ => 0
  | fuel + 1, n => if 2 ≤ n then log2floorAux fuel (n / 2) + 1 else 0

/-- Floor base-2 logarithm of n (0 for n = 0). -/
def log2floor (n : Nat) : Nat := log2floorAux n n

/-- KML alignment side length, from do_mosaic: dim = 2 << (int)(log(
max(bbox.width, bbox.height))/log 2), capped at total_resolution.  The
argument bbox is the composite bbox already cropped to the canvas.  The
float computation equals the floor base-2 logarithm of the max on the
relevant range. -/
def kmlDim (total_resolution : Int) (bbox : BBoxI) : Int :=
  let m : Nat := (max bbox.width bbox.height).toNat
  let dim : Int := 2 ^ (log2floor m + 1)
  if total_resolution < dim then total_resolution else dim

/-- KML total bounding box, from do_mosaic: crop the composite bbox to
the canvas, snap its min corner down to a multiple of dim, take a
dim-by-dim square, and if that square misses part of the bbox extend
both axes by one more dim increment (toward the interior at a
resolution boundary, outward otherwise). -/
def kmlTotalBBox (xresolution yresolution total_resolution : Int) (bbox0 : BBoxI) : BBoxI :=
  let bbox := bbox0.crop (BBoxI.mk4 0 0 xresolution yresolution)
  let dim := kmlDim total_resolution bbox
  let tb := BBoxI.mk4 ((bbox.minx.tdiv dim) * dim) ((bbox.miny.tdiv dim) * dim) dim dim
  if tb.contains bbox then tb
  else
    let tb1 := if tb.maxx = xresolution then { tb with minx := tb.minx - dim }
               else { tb with maxx := tb.maxx + dim }
    if tb1.maxy = yresolution then { tb1 with miny := tb1.miny - dim }
    else { tb1 with maxy := tb1.maxy + dim }

/-- Total bounding box per profile, from do_mosaic: KML aligns to the
power-of-two grid; GIGAPAN takes the raw composite bbox unchanged; all
other georeferenced profiles grow the raw bbox to and crop it back to
the full canvas, yielding the full canvas. -/
def totalBBoxFor (mode : Mode) (xresolution yresolution total_resolution : Int)
    (bbox : BBoxI) : BBoxI :=
  match mode with
  | Mode.kml => kmlTotalBBox xresolution yresolution total_resolution bbox
  | Mode.gigapan => bbox
  | _ =>
    (bbox.grow (BBoxI.mk4 0 0 total_resolution total_resolution)).crop
      (BBoxI.mk4 0 0 total_resolution total_resolution)

/-! Resolution estimation, from do_mosaic lines computing
total_resolution.  The profile-specific compute_resolution function is
an external collaborator; each source carries it, already specialised
to the GeoTransform of that source, as the field res. -/

/-- One input source as the resolution loop sees it: pixel dimensions
and the collaborator-supplied resolution function at a pixel. -/
structure Src where
  cols : Int
  rows : Int
  res : Int × Int → Int

/-- The five sample pixels, from do_mosaic: image center and center
offset by a quarter of the width horizontally and a quarter of the
height vertically (C++ integer division). -/
def samplePixels (cols rows : Int) : List (Int × Int) :=
  [ (cols.tdiv 2, rows.tdiv 2),
    (cols.tdiv 2 + cols.tdiv 4, rows.tdiv 2),
    (cols.tdiv 2 - cols.tdiv 4, rows.tdiv 2),
    (cols.tdiv 2, rows.tdiv 2 + rows.tdiv 4),
    (cols.tdiv 2, rows.tdiv 2 - rows.tdiv 4) ]

/-- Inner loop of the resolution scan: fold over the five samples,
keeping the running maximum (if resolution > total then replace). -/
def sampleFold (s : Src) (acc : Int) : Int :=
  (samplePixels s.cols s.rows).foldl (fun tr p => if tr < s.res p then s.res p else tr) acc

/-- Total resolution before any override: fold over all sources,
starting from the floor value 1024. -/
def totalResolution (srcs : List Src) : Int :=
  srcs.foldl (fun tr s => sampleFold s tr) 1024

/-- Total resolution with the optional user override, which replaces
the computed value unconditionally when set. -/
def totalResolutionWith (override : Option Int) (srcs : List Src) : Int :=
  match override with
  | some r => r
  | none => totalResolution srcs

/-- Resolution pair, from do_mosaic: xresolution = total / aspect_ratio
(C++ integer division), yresolution = total. -/
def resolutionPair (total aspect_ratio : Int) : Int × Int :=
  (total.tdiv aspect_ratio, total)

/-! Manual georeference transform, from make_input_georef: the affine
matrix built when opt.manual is set.  Matrix entries not assigned in
the code are zero.  Modelled over the rationals (the double arithmetic
realises this exact affine map up to rounding). -/

/-- The affine part of the manual 3x3 transform: row-major entries of
the top two rows. -/
structure AffineT where
  m00 : ℚ
  m01 : ℚ
  m02 : ℚ
  m10 : ℚ
  m11 : ℚ
  m12 : ℚ

/-- Manual transform, from make_input_georef: m(0,0) =
(east - west)/cols, m(0,2) = west, m(1,1) = (south - north)/rows,
m(1,2) = north, other affine entries zero. -/
def manualTransform (north south east west cols rows : ℚ) : AffineT :=
  ⟨(east - west) / cols, 0, west, 0, (south - north) / rows, north⟩

/-- Apply the affine transform to a pixel position (col, row), yielding
projected (here geographic) coordinates. -/
def applyAffine (t : AffineT) (col row : ℚ) : ℚ × ℚ :=
  (t.m00 * col + t.m01 * row + t.m02, t.m10 * col + t.m11 * row + t.m12)

/-! Global-overlay classification, from do_mosaic.  A source georef is
modelled by its trimmed proj4 string and its lonlat_to_pixel map (an
external collaborator, over the rationals). -/

/-- Source georeference as the global test sees it. -/
structure GeoRefM where
  proj4trim : String
  llToPix : ℚ × ℚ → ℚ × ℚ

/-- Rational absolute value, modelling fabs. -/
def rabs (q : ℚ) : ℚ := if q < 0 then -q else q

/-- The four edge bounds of the global test alone: the mapped points
(-180,0), (180,0), (0,90), (0,-90) land within one pixel of the left,
right, top and bottom edges. -/
def fourEdgeTest (g : GeoRefM) (cols rows : ℚ) : Bool :=
  decide (rabs (g.llToPix (-180, 0)).1 < 1) &&
  decide (rabs ((g.llToPix (180, 0)).1 - cols) < 1) &&
  decide (rabs (g.llToPix (0, 90)).2 < 1) &&
  decide (rabs ((g.llToPix (0, -90)).2 - rows) < 1)

/-- Global classification, from do_mosaic: trimmed proj4 string equals
"+proj=longlat" and the four edge bounds hold. -/
def globalCheck (g : GeoRefM) (cols rows : ℚ) : Bool :=
  (g.proj4trim == "+proj=longlat") && fourEdgeTest g cols rows

/-- The pixel map of a standard global equirectangular georeference of
width W and height H: longitude -180..180 spans columns 0..W linearly,
latitude 90..-90 spans rows 0..H linearly. -/
def equirectMap (W H : ℚ) : ℚ × ℚ → ℚ × ℚ :=
  fun p => ((p.1 + 180) * W / 360, (90 - p.2) * H / 180)

/-- A global equirectangular source georeference. -/
def equirectRef (W H : ℚ) : GeoRefM :=
  ⟨"+proj=longlat", equirectMap W H⟩

/-! Option validation, from Options::validate.  Tristate options are
modelled as Option values (isSome = set).  The boost::filesystem
replace_extension step is an external collaborator, passed in as
replaceExt.  The jpeg-quality and png-compression steps only mutate
global encoder state and are omitted.  Validation failures (VW_ASSERT
with a Usage message, the ConfigError kind of the spec) are modelled as
Except.error carrying the message. -/

/-- The configuration fields Options::validate reads or writes. -/
structure OptionsM where
  help : Bool
  input_files : List String
  output_file_name : String
  datum_type : DatumOverride
  sphere_radius : Option ℚ
  north : Option ℚ
  south : Option ℚ
  east : Option ℚ
  west : Option ℚ
  global : Bool
  manual : Bool
  mode : Mode
  module_name : Option String
deriving DecidableEq, Repr

/-- Defaulting of the output file name, from Options::validate: when
empty, derive it from the first input file; the boost::filesystem
extension stripping is the external collaborator replaceExt. -/
def withDefaultName (replaceExt : String → String) (o : OptionsM) : OptionsM :=
  if o.output_file_name = "" then
    { o with output_file_name := replaceExt (o.input_files.headD "") }
  else o

/-- Mode-specific validation checks, from the switch in
Options::validate. -/
def modeChecks (o : OptionsM) : Except String OptionsM :=
  match o.mode with
  | Mode.none | Mode.gigapanNoproj =>
    if o.input_files.length = 1 then Except.ok o
    else Except.error "Non-georeferenced images cannot be composed"
  | Mode.celestia | Mode.uniview =>
    if o.module_name.isSome then Except.ok o
    else Except.error "Uniview and Celestia require --module-name"
  | _ => Except.ok o

/-- Options::validate.  The manual-bbox branch reproduces the source
text faithfully: the statement guarded by the global conditional is
only the assignment to north (the if body has no braces), so south,
east and west are assigned unconditionally inside the branch. -/
def validate (replaceExt : String → String) (o : OptionsM) : Except String OptionsM :=
  if o.help then Except.error "usage" else
  if o.input_files.length = 0 then Except.error "Need at least one input image" else
  if o.datum_type = DatumOverride.sphere ∧ o.sphere_radius = none then
    Except.error "Sphere datum override requires a radius" else
  let o := withDefaultName replaceExt o
  if o.global ∨ o.north.isSome ∨ o.south.isSome ∨ o.east.isSome ∨ o.west.isSome then
    if o.input_files.length ≠ 1 then
      Except.error "Cannot override georeference information on multiple images"
    else if ¬ (o.global ∨ (o.north.isSome ∧ o.south.isSome ∧ o.east.isSome ∧ o.west.isSome)) then
      Except.error "If you provide one, you must provide all of: --north --south --east --west"
    else
      modeChecks { o with north := if o.global then some 90 else o.north,
                          south := some (-90),
                          east := some 180,
                          west := some (-180),
                          manual := true }
  else
    modeChecks o

/-- The run driver: main aborts before any processing when validation
fails. process stands for the rest of the pipeline. -/
def runValidated {α : Type} (replaceExt : String → String) (o : OptionsM)
    (process : OptionsM → α) : Except String α :=
  match validate replaceExt o with
  | Except.error e => Except.error e
  | Except.ok o2 => Except.ok (process o2)

/-! Per-source view pipeline, from the compositing loop of do_mosaic.
The image operations are external collaborators; what matters for the
claims is which operations are applied to which reads, so the pipeline
is modelled as a syntax tree of view expressions. -/

/-- Symbolic image view expression. -/
inductive ViewExpr where
  | diskRead (filename : String)
  | maskToAlpha (e : ViewExpr) (nodata : ℚ)
  | rescaleCast (e : ViewExpr) (scale offset : ℚ)
  | normalizeRA (e : ViewExpr) (lo hi : ℚ)
  | warped (e : ViewExpr) (global : Bool)
deriving DecidableEq, Repr

/-- The view built for one source, from do_mosaic: start from a disk
read; wrap in nodata-to-alpha masking when a nodata value is set; when
a pixel scale or offset is set, replace the view by a rescale of a
fresh disk read; when normalization is on, replace the view by a
normalization of a fresh disk read; finally warp and crop. -/
def buildSource (nodata pixel_scale pixel_offset : Option ℚ) (normalize : Bool)
    (lo hi : ℚ) (filename : String) (global : Bool) : ViewExpr :=
  let s0 := ViewExpr.diskRead filename
  let s1 := match nodata with
            | some nd => ViewExpr.maskToAlpha s0 nd
            | none => s0
  let s2 := if pixel_scale.isSome ∨ pixel_offset.isSome then
              ViewExpr.rescaleCast (ViewExpr.diskRead filename)
                (pixel_scale.getD 1) (pixel_offset.getD 0)
            else s1
  let s3 := if normalize then
              ViewExpr.normalizeRA (ViewExpr.diskRead filename) lo hi
            else s2
  ViewExpr.warped s3 global

/-- Whether a view expression contains a nodata-to-alpha mask. -/
def hasMask : ViewExpr → Bool
  | ViewExpr.diskRead _ => false
  | ViewExpr.maskToAlpha _ _ => true
  | ViewExpr.rescaleCast e _ _ => hasMask e
  | ViewExpr.normalizeRA e _ _ => hasMask e
  | ViewExpr.warped e _ => hasMask e

/-! Data bounding box, from do_mosaic after composite.prepare. -/

/-- Modelled from the spec: ImageComposite is a collaborator whose
source is not part of this snapshot.  Per the spec, its bbox is the
union of all insertion bboxes; prepare(total_bbox) re-bases the canvas
so that it is indexed relative to the min corner of total_bbox, which
the bbox it exposes afterwards reflects. -/
def preparedBBox (raw total_bbox : BBoxI) : BBoxI :=
  raw.translate (-total_bbox.minx) (-total_bbox.miny)

/-- Data bbox for KML and Gigapan, from do_mosaic: the prepared
composite bbox cropped to BBox2i(0, 0, total width, total height). -/
def dataBBoxKmlGigapan (raw total_bbox : BBoxI) : BBoxI :=
  (preparedBBox raw total_bbox).crop (BBoxI.mk4 0 0 total_bbox.width total_bbox.height)

/-- Data bbox for the remaining georeferenced profiles, from do_mosaic:
min corner floored to a tile_size multiple, extent rounded up to a
tile_size multiple, then cropped to the total bbox.  std::floor and
std::ceil of the double quotients equal Int.ediv and its negation
mirror for positive tile_size. -/
def dataBBoxOther (tile_size : Int) (raw total_bbox : BBoxI) : BBoxI :=
  (BBoxI.mk4 ((raw.minx / tile_size) * tile_size)
             ((raw.miny / tile_size) * tile_size)
             ((-((-raw.width) / tile_size)) * tile_size)
             ((-((-raw.height) / tile_size)) * tile_size)).crop total_bbox

/-! Helper lemmas. -/

/-- Bounds for the fuel-based floor base-2 logarithm. -/
theorem log2floorAux_bounds (fuel : Nat) : ∀ n : Nat, n ≤ fuel → 1 ≤ n →
    2 ^ log2floorAux fuel n ≤ n ∧ n < 2 ^ (log2floorAux fuel n + 1) := by
  induction fuel with
  | zero => intro n h1 h2; omega
  | succ f ih =>
    intro n hf h1
    rw [log2floorAux]
    by_cases h2 : 2 ≤ n
    · have hd : n / 2 ≤ f := by omega
      have hd1 : 1 ≤ n / 2 := by omega
      obtain ⟨a1, a2⟩ := ih (n / 2) hd hd1
      rw [if_pos h2]
      have e1 : 2 ^ (log2floorAux f (n / 2) + 1) = 2 * 2 ^ log2floorAux f (n / 2) := by ring
      have e2 : 2 ^ (log2floorAux f (n / 2) + 1 + 1) = 4 * 2 ^ log2floorAux f (n / 2) := by ring
      omega
    · rw [if_neg h2]
      simp only [pow_zero, pow_one]
      omega

/-- Bounds for log2floor: it is the floor base-2 logarithm. -/
theorem log2floor_bounds (n : Nat) (h1 : 1 ≤ n) :
    2 ^ log2floor n ≤ n ∧ n < 2 ^ (log2floor n + 1) :=
  log2floorAux_bounds n n le_rfl h1

/-! C1: antimeridian duplicate-wrap law. -/

/-- C1 counterexample: in a run with aspect_ratio 2 (total resolution
2048, xresolution 1024), a source bbox [1000, 1500) straddles x =
xresolution as the claim describes (right edge 1500 exceeds
xresolution 1024, left edge 1000 lies in [0, 1024)), yet the code
performs exactly one insertion, not two: the duplicate-wrap test
compares the right edge against total_resolution, not xresolution. -/
theorem insertions_straddle_xres_cex :
    (0 : Int) ≤ 1000 ∧ (1000 : Int) < 1024 ∧ (1024 : Int) < 1500 ∧
    (insertions 2048 1024 ⟨1000, 0, 1500, 100⟩).length = 1 := by decide

/-- C1 (amended): a source whose transformed bbox has its right edge
strictly beyond the total resolution and its left edge within
[0, xresolution) is inserted exactly twice, once shifted left by the
total resolution and once normally; a source whose bbox lies fully
inside [0, xresolution) is inserted exactly once, normally. -/
theorem insertions_wrap_amended (total xres : Int) (b : BBoxI) (hxt : xres ≤ total) :
    ((0 ≤ b.minx ∧ b.minx < xres ∧ total < b.maxx) →
      insertions total xres b = [(b.minx - total, b.miny), (b.minx, b.miny)]) ∧
    ((0 ≤ b.minx ∧ b.minx < b.maxx ∧ b.maxx ≤ xres) →
      insertions total xres b = [(b.minx, b.miny)]) := by
  constructor
  · rintro ⟨h0, h1, h2⟩
    simp only [insertions]
    rw [if_pos h2, if_pos h1]
    rfl
  · rintro ⟨h0, h1, h2⟩
    simp only [insertions]
    rw [if_neg (by omega : ¬ total < b.maxx), if_pos (by omega : b.minx < xres)]
    rfl

/-- Witness for the amended C1 theorem at a concrete input. -/
theorem insertions_wrap_amended_witness :
    insertions 1024 1024 ⟨0, 0, 512, 512⟩ = [(0, 0)] :=
  (insertions_wrap_amended 1024 1024 ⟨0, 0, 512, 512⟩ (by decide)).2 (by decide)

/-! C2: KML alignment side length. -/

/-- C2 counterexample: for a clipped bbox of width 256 and height 200
with total resolution 1024, the smallest power of two at least
max(256, 200) is 2^8 = 256 and does not exceed the total resolution,
yet the code computes dim = 512: the shift 2 << floor(log2 m) lands one
power of two higher whenever m is itself a power of two. -/
theorem kml_dim_cex :
    max (BBoxI.width ⟨0, 0, 256, 200⟩) (BBoxI.height ⟨0, 0, 256, 200⟩) ≤ 2 ^ 8 ∧
    ((2 : Int) ^ 8) ≤ 1024 ∧ ((2 : Int) ^ 8) = 256 ∧
    kmlDim 1024 ⟨0, 0, 256, 200⟩ = 512 ∧ (512 : Int) ≠ 256 := by decide

/-- C2 (amended): with m the positive max of the clipped width and
height, dim is the smallest power of two strictly greater than m
whenever some power of two strictly greater than m fits within the
total resolution, and dim is the total resolution otherwise; in
particular a clipped bbox of width 300 and height 200 yields dim = 512
whenever 512 ≤ total resolution. -/
theorem kml_dim_amended (total : Int) (b : BBoxI)
    (hm : 1 ≤ max b.width b.height) :
    ((∃ k : Nat, max b.width b.height < 2 ^ k ∧ (2 : Int) ^ k ≤ total) →
       ((∃ j : Nat, kmlDim total b = 2 ^ j) ∧
        max b.width b.height < kmlDim total b ∧
        ∀ k : Nat, max b.width b.height < (2 : Int) ^ k → kmlDim total b ≤ 2 ^ k)) ∧
    ((∀ k : Nat, max b.width b.height < (2 : Int) ^ k → total < 2 ^ k) →
       kmlDim total b = total) ∧
    (∀ t2 : Int, 512 ≤ t2 → kmlDim t2 ⟨0, 0, 300, 200⟩ = 512) := by
  have hM : ((max b.width b.height).toNat : Int) = max b.width b.height :=
    Int.toNat_of_nonneg (by omega)
  set m : Int := max b.width b.height with hmdef
  set M : Nat := m.toNat with hMdef
  have hM1 : 1 ≤ M := by omega
  obtain ⟨hlo, hhi⟩ := log2floor_bounds M hM1
  set L : Nat := log2floor M with hLdef
  have hrawI : ∀ j : Nat, ((2 ^ j : Nat) : Int) = (2 : Int) ^ j := by
    intro j; push_cast; ring
  have hmlt : m < (2 : Int) ^ (L + 1) := by
    rw [← hrawI]; omega
  have hmin : ∀ k : Nat, m < (2 : Int) ^ k → (2 : Int) ^ (L + 1) ≤ (2 : Int) ^ k := by
    intro k hk
    have hk2 : M < 2 ^ k := by
      rw [← hrawI] at hk; omega
    have hLk : L < k := by
      by_contra hc
      have : 2 ^ k ≤ 2 ^ L := Nat.pow_le_pow_right (by norm_num) (by omega)
      omega
    have : (2 : Nat) ^ (L + 1) ≤ 2 ^ k := Nat.pow_le_pow_right (by norm_num) (by omega)
    rw [← hrawI, ← hrawI]
    exact_mod_cast this
  have hunfold : kmlDim total b =
      if total < (2 : Int) ^ (L + 1) then total else (2 : Int) ^ (L + 1) := by
    simp only [kmlDim, ← hmdef, ← hMdef, ← hLdef]
  refine ⟨?_, ?_, ?_⟩
  · rintro ⟨k, hk1, hk2⟩
    have hle : (2 : Int) ^ (L + 1) ≤ total := le_trans (hmin k hk1) hk2
    rw [hunfold, if_neg (by omega)]
    exact ⟨⟨L + 1, rfl⟩, hmlt, hmin⟩
  · intro hall
    have := hall (L + 1) hmlt
    rw [hunfold, if_pos this]
  · intro t2 ht
    have h1 : kmlDim t2 ⟨0, 0, 300, 200⟩ =
        if t2 < (512 : Int) then t2 else 512 := by
      simp only [kmlDim]
      norm_num [BBoxI.width, BBoxI.height]
      rfl
    rw [h1, if_neg (by omega)]

/-- Witness for the amended C2 theorem at a concrete input. -/
theorem kml_dim_amended_witness :
    kmlDim 1024 ⟨0, 0, 300, 200⟩ = 512 :=
  (kml_dim_amended 4096 ⟨0, 0, 300, 200⟩ (by decide)).2.2 1024 (by decide)

/-! C3: alignment invariant for KML-like profiles. -/

/-- Doubling bound between integer powers of two. -/
theorem two_pow_int_double_le {j k : Nat} (h : (2 : Int) ^ j < (2 : Int) ^ k) :
    2 * (2 : Int) ^ j ≤ (2 : Int) ^ k := by
  have hn : (2 : Nat) ^ j < (2 : Nat) ^ k := by exact_mod_cast h
  have hjk : j < k := by
    by_contra hc
    have := Nat.pow_le_pow_right (by norm_num : 1 ≤ 2) (by omega : k ≤ j)
    omega
  have h2 : (2 : Nat) ^ (j + 1) ≤ (2 : Nat) ^ k :=
    Nat.pow_le_pow_right (by norm_num) (by omega)
  have h3 : (2 : Nat) ^ (j + 1) = 2 * 2 ^ j := by ring
  exact_mod_cast h3 ▸ h2

/-- C3 counterexample: for the Gigapan profile the computed total bbox
is the raw composite bbox, which for a 300 x 200 composite is not
square; and for KML with the non-power-of-two total resolution 3000 the
computed total bbox has side 4096, which exceeds the total
resolution. -/
theorem total_bbox_kml_like_cex :
    ((totalBBoxFor Mode.gigapan 1024 1024 1024 ⟨0, 0, 300, 200⟩).width ≠
     (totalBBoxFor Mode.gigapan 1024 1024 1024 ⟨0, 0, 300, 200⟩).height) ∧
    (3000 < (totalBBoxFor Mode.kml 3000 3000 3000 ⟨1000, 1000, 2500, 2500⟩).width) := by
  decide

/-- C3 (amended): for the KML profile, when the total resolution is a
power of two, xresolution is at most the total resolution and the
composite bbox is nonempty and inside the canvas, the computed total
bbox is square, its side is a power of two, and its side never exceeds
the total resolution.  (Gigapan performs no alignment: its total bbox
is the raw composite bbox; and a non-power-of-two total resolution can
produce a side of 3000 or 4096 as in the counterexample.) -/
theorem kml_total_bbox_aligned (xres total : Int) (b : BBoxI)
    (hpow : ∃ k : Nat, total = (2 : Int) ^ k)
    (hxt : xres ≤ total)
    (hx0 : 0 ≤ b.minx) (hxw : b.minx < b.maxx) (hxr : b.maxx ≤ xres)
    (hy0 : 0 ≤ b.miny) (hyh : b.miny < b.maxy) (hyr : b.maxy ≤ total) :
    (kmlTotalBBox xres total total b).width = (kmlTotalBBox xres total total b).height ∧
    (∃ j : Nat, (kmlTotalBBox xres total total b).width = (2 : Int) ^ j) ∧
    (kmlTotalBBox xres total total b).width ≤ total := by
  have hcrop : b.crop (BBoxI.mk4 0 0 xres total) = b := by
    cases b
    simp only [BBoxI.crop, BBoxI.mk4, BBoxI.mk.injEq] at *
    refine ⟨?_, ?_, ?_, ?_⟩ <;> omega
  simp only [kmlTotalBBox, hcrop]
  set d : Int := kmlDim total b with hddef
  have hdunfold : d = if total < (2 : Int) ^ (log2floor (max b.width b.height).toNat + 1)
      then total else (2 : Int) ^ (log2floor (max b.width b.height).toNat + 1) := by
    rw [hddef]; simp only [kmlDim]
  have hdle : d ≤ total := by rw [hdunfold]; split <;> omega
  have hdpow : ∃ j : Nat, d = (2 : Int) ^ j := by
    rw [hdunfold]; split
    · exact hpow
    · exact ⟨_, rfl⟩
  have hcont : d = total →
      (BBoxI.mk4 (b.minx.tdiv d * d) (b.miny.tdiv d * d) d d).contains b = true := by
    intro h
    have e1 : b.minx.tdiv d = 0 := Int.tdiv_eq_zero_of_lt hx0 (by omega)
    have e2 : b.miny.tdiv d = 0 := Int.tdiv_eq_zero_of_lt hy0 (by omega)
    rw [e1, e2]
    simp only [BBoxI.mk4, BBoxI.contains, Bool.and_eq_true, decide_eq_true_eq]
    refine ⟨⟨⟨?_, ?_⟩, ?_⟩, ?_⟩ <;> omega
  by_cases hc : (BBoxI.mk4 (b.minx.tdiv d * d) (b.miny.tdiv d * d) d d).contains b = true
  · rw [if_pos hc]
    obtain ⟨j, hj⟩ := hdpow
    refine ⟨?_, ⟨j, ?_⟩, ?_⟩ <;>
      simp only [BBoxI.mk4, BBoxI.width, BBoxI.height] <;> omega
  · rw [if_neg hc]
    have hdlt : d < total := lt_of_le_of_ne hdle (fun h => hc (hcont h))
    obtain ⟨j, hj⟩ := hdpow
    obtain ⟨k, hk⟩ := hpow
    have hdouble : 2 * d ≤ total := by
      rw [hj, hk]; exact two_pow_int_double_le (by rw [← hj, ← hk]; omega)
    have h2dpow : 2 * d = (2 : Int) ^ (j + 1) := by rw [hj, pow_succ]; ring
    split <;> split <;>
      refine ⟨?_, ⟨j + 1, ?_⟩, ?_⟩ <;>
        simp only [BBoxI.mk4, BBoxI.width, BBoxI.height] <;> omega

/-- Witness for the amended C3 theorem at a concrete input. -/
theorem kml_total_bbox_aligned_witness :
    (kmlTotalBBox 1024 1024 1024 ⟨0, 0, 300, 200⟩).width =
      (kmlTotalBBox 1024 1024 1024 ⟨0, 0, 300, 200⟩).height ∧
    (∃ j : Nat, (kmlTotalBBox 1024 1024 1024 ⟨0, 0, 300, 200⟩).width = (2 : Int) ^ j) ∧
    (kmlTotalBBox 1024 1024 1024 ⟨0, 0, 300, 200⟩).width ≤ 1024 :=
  kml_total_bbox_aligned 1024 1024 ⟨0, 0, 300, 200⟩ ⟨10, by norm_num⟩ (by norm_num)
    (by norm_num) (by norm_num) (by norm_num) (by norm_num) (by norm_num) (by norm_num)

/-! C4: resolution estimation. -/

/-- The running maximum never decreases along the inner sample fold. -/
theorem le_foldl_resstep (res : Int × Int → Int) (l : List (Int × Int)) :
    ∀ acc : Int, acc ≤ l.foldl (fun tr p => if tr < res p then res p else tr) acc := by
  induction l with
  | nil => intro acc; simp
  | cons q l ih =>
    intro acc
    simp only [List.foldl_cons]
    refine le_trans ?_ (ih _)
    split <;> omega

/-- Every sampled value is bounded by the inner fold result. -/
theorem resstep_mem_le (res : Int × Int → Int) (l : List (Int × Int)) :
    ∀ acc : Int, ∀ p ∈ l, res p ≤ l.foldl (fun tr p => if tr < res p then res p else tr) acc := by
  induction l with
  | nil => intro acc p hp; simp at hp
  | cons q l ih =>
    intro acc p hp
    simp only [List.mem_cons] at hp
    simp only [List.foldl_cons]
    rcases hp with h | h
    · subst h
      refine le_trans ?_ (le_foldl_resstep res l _)
      split <;> omega
    · exact ih _ p h

/-- The inner fold result is the accumulator or one of the samples. -/
theorem resstep_cases (res : Int × Int → Int) (l : List (Int × Int)) :
    ∀ acc : Int, l.foldl (fun tr p => if tr < res p then res p else tr) acc = acc ∨
      ∃ p ∈ l, l.foldl (fun tr p => if tr < res p then res p else tr) acc = res p := by
  induction l with
  | nil => intro acc; left; simp
  | cons q l ih =>
    intro acc
    simp only [List.foldl_cons]
    rcases ih (if acc < res q then res q else acc) with h | ⟨p, hp, e⟩
    · rw [h]
      split
      · right; exact ⟨q, List.mem_cons_self q l, rfl⟩
      · left; rfl
    · right; exact ⟨p, List.mem_cons_of_mem q hp, e⟩

/-- The accumulator never decreases along the outer source fold. -/
theorem le_foldl_srcstep (srcs : List Src) :
    ∀ acc : Int, acc ≤ srcs.foldl (fun tr s => sampleFold s tr) acc := by
  induction srcs with
  | nil => intro acc; simp
  | cons s srcs ih =>
    intro acc
    simp only [List.foldl_cons]
    exact le_trans (le_foldl_resstep s.res _ acc) (ih _)

/-- Every sample of every source is bounded by the outer fold result. -/
theorem srcstep_mem_le (srcs : List Src) :
    ∀ acc : Int, ∀ s ∈ srcs, ∀ p ∈ samplePixels s.cols s.rows,
      s.res p ≤ srcs.foldl (fun tr s => sampleFold s tr) acc := by
  induction srcs with
  | nil => intro acc s hs; simp at hs
  | cons t srcs ih =>
    intro acc s hs p hp
    simp only [List.mem_cons] at hs
    simp only [List.foldl_cons]
    rcases hs with h | h
    · subst h
      exact le_trans (resstep_mem_le s.res _ acc p hp) (le_foldl_srcstep srcs _)
    · exact ih _ s h p hp

/-- The outer fold result is the accumulator or one of the samples. -/
theorem srcstep_cases (srcs : List Src) :
    ∀ acc : Int, srcs.foldl (fun tr s => sampleFold s tr) acc = acc ∨
      ∃ s ∈ srcs, ∃ p ∈ samplePixels s.cols s.rows,
        srcs.foldl (fun tr s => sampleFold s tr) acc = s.res p := by
  induction srcs with
  | nil => intro acc; left; simp
  | cons t srcs ih =>
    intro acc
    simp only [List.foldl_cons]
    rcases ih (sampleFold t acc) with h | ⟨s, hs, p, hp, e⟩
    · rw [h]
      rcases resstep_cases t.res (samplePixels t.cols t.rows) acc with h2 | ⟨p, hp, e⟩
      · left; exact h2
      · right; exact ⟨t, List.mem_cons_self t srcs, p, hp, e⟩
    · right; exact ⟨s, List.mem_cons_of_mem t hs, p, hp, e⟩

/-- C4: with no override the total resolution is the maximum of the
floor 1024 and the resolution function evaluated at the five sample
pixels of every source (so it is at least 1024, bounds every sample,
and is attained at 1024 or at some sample), it is monotone
non-decreasing as sources are appended, a configured override replaces
the computed value unconditionally, and the resolution pair is
xresolution = total divided by aspect_ratio, yresolution = total. -/
theorem total_resolution_spec :
    (∀ srcs : List Src, 1024 ≤ totalResolution srcs) ∧
    (∀ srcs : List Src, ∀ s ∈ srcs, ∀ p ∈ samplePixels s.cols s.rows,
      s.res p ≤ totalResolution srcs) ∧
    (∀ srcs : List Src, totalResolution srcs = 1024 ∨
      ∃ s ∈ srcs, ∃ p ∈ samplePixels s.cols s.rows, totalResolution srcs = s.res p) ∧
    (∀ (srcs : List Src) (s : Src), totalResolution srcs ≤ totalResolution (srcs ++ [s])) ∧
    (∀ (r : Int) (srcs : List Src), totalResolutionWith (some r) srcs = r) ∧
    (∀ (ov : Option Int) (srcs : List Src) (aspect : Int),
      resolutionPair (totalResolutionWith ov srcs) aspect =
        ((totalResolutionWith ov srcs).tdiv aspect, totalResolutionWith ov srcs)) := by
  refine ⟨?_, ?_, ?_, ?_, ?_, ?_⟩
  · intro srcs; exact le_foldl_srcstep srcs 1024
  · intro srcs s hs p hp; exact srcstep_mem_le srcs 1024 s hs p hp
  · intro srcs; exact srcstep_cases srcs 1024
  · intro srcs s
    simp only [totalResolution, List.foldl_append, List.foldl_cons, List.foldl_nil]
    exact le_foldl_resstep s.res _ _
  · intro r srcs; rfl
  · intro ov srcs aspect; rfl

/-- Witness for the C4 theorem at a concrete input. -/
theorem total_resolution_spec_witness :
    (⟨4, 4, fun _ => 5000⟩ : Src).res (2, 2) ≤
      totalResolution [(⟨4, 4, fun _ => 5000⟩ : Src)] :=
  total_resolution_spec.2.1 [⟨4, 4, fun _ => 5000⟩] ⟨4, 4, fun _ => 5000⟩
    (by simp) (2, 2) (by decide)

/-! C5: manual georeference transform. -/

/-- C5: for a manual geographic bbox the synthesized transform maps the
image linearly onto [west, east] x [north, south]: pixel (0, 0) maps to
(west, north), column cols maps to longitude east, row rows maps to
latitude south, and a general pixel maps to the linear
interpolation. -/
theorem manual_transform_spec (north south east west cols rows : ℚ)
    (hc : cols ≠ 0) (hr : rows ≠ 0) :
    applyAffine (manualTransform north south east west cols rows) 0 0 = (west, north) ∧
    (applyAffine (manualTransform north south east west cols rows) cols 0).1 = east ∧
    (applyAffine (manualTransform north south east west cols rows) 0 rows).2 = south ∧
    (∀ c r : ℚ, applyAffine (manualTransform north south east west cols rows) c r =
      (west + c * (east - west) / cols, north + r * (south - north) / rows)) := by
  refine ⟨?_, ?_, ?_, ?_⟩
  · simp [applyAffine, manualTransform]
  · simp only [applyAffine, manualTransform]
    field_simp
  · simp only [applyAffine, manualTransform]
    field_simp
  · intro c r
    simp only [applyAffine, manualTransform, Prod.mk.injEq]
    constructor <;> ring

/-- Witness for the C5 theorem at a concrete input. -/
theorem manual_transform_spec_witness :
    applyAffine (manualTransform 90 (-90) 180 (-180) 360 180) 0 0 = (-180, 90) ∧
    (applyAffine (manualTransform 90 (-90) 180 (-180) 360 180) 360 0).1 = 180 ∧
    (applyAffine (manualTransform 90 (-90) 180 (-180) 360 180) 0 180).2 = -90 ∧
    (∀ c r : ℚ, applyAffine (manualTransform 90 (-90) 180 (-180) 360 180) c r =
      (-180 + c * (180 - -180) / 360, 90 + r * (-90 - 90) / 180)) :=
  manual_transform_spec 90 (-90) 180 (-180) 360 180 (by norm_num) (by norm_num)

/-! C7: global-overlay classification. -/

/-- C7 counterexample: a source whose lonlat-to-pixel map satisfies all
four edge bounds exactly but whose trimmed proj4 string is
"+proj=merc" is not classified global: the code additionally requires
the proj4 string "+proj=longlat", which the claim omits. -/
theorem global_check_cex :
    fourEdgeTest ⟨"+proj=merc", equirectMap 360 180⟩ 360 180 = true ∧
    globalCheck ⟨"+proj=merc", equirectMap 360 180⟩ 360 180 = false := by
  have m1 : (equirectMap 360 180 (-180, 0)).1 = 0 := by
    show ((-180 : ℚ) + 180) * 360 / 360 = 0
    norm_num
  have m2 : (equirectMap 360 180 (180, 0)).1 - 360 = 0 := by
    show ((180 : ℚ) + 180) * 360 / 360 - 360 = 0
    norm_num
  have m3 : (equirectMap 360 180 (0, 90)).2 = 0 := by
    show ((90 : ℚ) - 90) * 180 / 180 = 0
    norm_num
  have m4 : (equirectMap 360 180 (0, -90)).2 - 180 = 0 := by
    show ((90 : ℚ) - -90) * 180 / 180 - 180 = 0
    norm_num
  constructor
  · simp [fourEdgeTest, m1, m2, m3, m4, rabs]
  · simp [globalCheck]

/-- C7 (amended): a source is classified global exactly when its
trimmed proj4 string equals "+proj=longlat" and forward-mapping
(-180,0), (180,0), (0,90), (0,-90) lands within one pixel of the left,
right, top and bottom edges respectively; in particular a global
equirectangular source of width W and height H is classified
global. -/
theorem global_check_amended :
    (∀ (g : GeoRefM) (cols rows : ℚ), globalCheck g cols rows = true ↔
      (g.proj4trim = "+proj=longlat" ∧
       |(g.llToPix (-180, 0)).1| < 1 ∧
       |(g.llToPix (180, 0)).1 - cols| < 1 ∧
       |(g.llToPix (0, 90)).2| < 1 ∧
       |(g.llToPix (0, -90)).2 - rows| < 1)) ∧
    (∀ W H : ℚ, globalCheck (equirectRef W H) W H = true) := by
  have habs : ∀ q : ℚ, rabs q = |q| := by
    intro q
    rw [rabs]
    rcases lt_or_le q 0 with h | h
    · rw [if_pos h, abs_of_neg h]
    · rw [if_neg (not_lt.mpr h), abs_of_nonneg h]
  constructor
  · intro g cols rows
    simp [globalCheck, fourEdgeTest, Bool.and_eq_true, decide_eq_true_eq,
      beq_iff_eq, habs, and_assoc]
  · intro W H
    have m1 : (equirectMap W H (-180, 0)).1 = 0 := by
      show ((-180 : ℚ) + 180) * W / 360 = 0
      ring
    have m2 : (equirectMap W H (180, 0)).1 - W = 0 := by
      show ((180 : ℚ) + 180) * W / 360 - W = 0
      ring
    have m3 : (equirectMap W H (0, 90)).2 = 0 := by
      show ((90 : ℚ) - 90) * H / 180 = 0
      ring
    have m4 : (equirectMap W H (0, -90)).2 - H = 0 := by
      show ((90 : ℚ) - -90) * H / 180 - H = 0
      ring
    simp [globalCheck, equirectRef, fourEdgeTest, m1, m2, m3, m4, rabs]

/-! C8, C9: option validation. -/

/-- Output-name defaulting leaves the global flag unchanged. -/
theorem wdn_global (f : String → String) (o : OptionsM) :
    (withDefaultName f o).global = o.global := by
  unfold withDefaultName; split <;> rfl

/-- Output-name defaulting leaves north unchanged. -/
theorem wdn_north (f : String → String) (o : OptionsM) :
    (withDefaultName f o).north = o.north := by
  unfold withDefaultName; split <;> rfl

/-- Output-name defaulting leaves south unchanged. -/
theorem wdn_south (f : String → String) (o : OptionsM) :
    (withDefaultName f o).south = o.south := by
  unfold withDefaultName; split <;> rfl

/-- Output-name defaulting leaves east unchanged. -/
theorem wdn_east (f : String → String) (o : OptionsM) :
    (withDefaultName f o).east = o.east := by
  unfold withDefaultName; split <;> rfl

/-- Output-name defaulting leaves west unchanged. -/
theorem wdn_west (f : String → String) (o : OptionsM) :
    (withDefaultName f o).west = o.west := by
  unfold withDefaultName; split <;> rfl

/-- Output-name defaulting leaves the input file list unchanged. -/
theorem wdn_input_files (f : String → String) (o : OptionsM) :
    (withDefaultName f o).input_files = o.input_files := by
  unfold withDefaultName; split <;> rfl

/-- The mode checks never modify the configuration they accept. -/
theorem modeChecks_ok_eq {o o2 : OptionsM} (h : modeChecks o = Except.ok o2) : o2 = o := by
  unfold modeChecks at h
  split at h <;>
    (try split at h) <;>
    first
      | exact (Except.ok.inj h).symm
      | exact Except.noConfusion h

/-- C8: validation fails, aborting the run before any processing,
whenever a manual bbox option (north, south, east, west or the global
flag) accompanies more than one input source, and whenever the Sphere
datum override is selected without a radius. -/
theorem validate_rejects (replaceExt : String → String) (o : OptionsM)
    (h : (o.datum_type = DatumOverride.sphere ∧ o.sphere_radius = none) ∨
         ((o.global = true ∨ o.north.isSome = true ∨ o.south.isSome = true ∨
           o.east.isSome = true ∨ o.west.isSome = true) ∧ 2 ≤ o.input_files.length)) :
    (∀ o2 : OptionsM, validate replaceExt o ≠ Except.ok o2) ∧
    (∀ (α : Type) (process : OptionsM → α) (a : α),
      runValidated replaceExt o process ≠ Except.ok a) := by
  have hv : ∀ o2 : OptionsM, validate replaceExt o ≠ Except.ok o2 := by
    intro o2 heq
    simp only [validate, wdn_global, wdn_north, wdn_south, wdn_east, wdn_west,
      wdn_input_files] at heq
    rcases h with ⟨h1, h2⟩ | ⟨htrig, hlen⟩
    · split at heq
      · exact Except.noConfusion heq
      · split at heq
        · exact Except.noConfusion heq
        · split at heq
          · exact Except.noConfusion heq
          · rename_i hc
            exact hc ⟨h1, h2⟩
    · split at heq
      · exact Except.noConfusion heq
      · split at heq
        · exact Except.noConfusion heq
        · split at heq
          · exact Except.noConfusion heq
          · split at heq
            · exact Except.noConfusion heq
            · rename_i hne
              omega
  refine ⟨hv, ?_⟩
  intro α process a heq
  rcases hval : validate replaceExt o with e | o3
  · rw [runValidated, hval] at heq
    exact Except.noConfusion heq
  · exact hv o3 hval

/-- Witness for the C8 theorem at a concrete input. -/
theorem validate_rejects_witness :
    validate (fun s => s)
      ⟨false, ["a.png"], "out", DatumOverride.sphere, none, none, none, none, none,
        false, false, Mode.kml, none⟩ ≠
    Except.ok
      ⟨false, ["a.png"], "out", DatumOverride.sphere, none, none, none, none, none,
        false, false, Mode.kml, none⟩ :=
  (validate_rejects (fun s => s)
      ⟨false, ["a.png"], "out", DatumOverride.sphere, none, none, none, none, none,
        false, false, Mode.kml, none⟩ (Or.inl ⟨rfl, rfl⟩)).1 _

/-- C9: when validation succeeds for a configuration carrying any
manual bbox option, south, east and west are overwritten with -90, 180
and -180; north keeps its configured value unless the global flag is
set, in which case north becomes 90; and the manual flag is set. -/
theorem validate_manual_overwrites (replaceExt : String → String) (o o2 : OptionsM)
    (hok : validate replaceExt o = Except.ok o2)
    (htrig : o.global = true ∨ o.north.isSome = true ∨ o.south.isSome = true ∨
             o.east.isSome = true ∨ o.west.isSome = true) :
    o2.south = some (-90) ∧ o2.east = some 180 ∧ o2.west = some (-180) ∧
    o2.manual = true ∧
    (o.global = false → o2.north = o.north) ∧
    (o.global = true → o2.north = some 90) := by
  simp only [validate, wdn_global, wdn_north, wdn_south, wdn_east, wdn_west,
    wdn_input_files] at hok
  split at hok
  · exact Except.noConfusion hok
  split at hok
  · exact Except.noConfusion hok
  split at hok
  · exact Except.noConfusion hok
  split at hok
  · exact Except.noConfusion hok
  split at hok
  · exact Except.noConfusion hok
  have h2 := modeChecks_ok_eq hok
  subst h2
  refine ⟨rfl, rfl, rfl, rfl, ?_, ?_⟩
  · intro hg
    simp [hg]
  · intro hg
    simp [hg]

/-- Witness for the C9 theorem at a concrete input: north stays at the
configured 45 while the configured south 10, east 20 and west 30 are
overwritten with -90, 180 and -180. -/
theorem validate_manual_overwrites_witness :
    (⟨false, ["in.png"], "out", DatumOverride.none, none, some 45, some (-90),
        some 180, some (-180), false, true, Mode.kml, none⟩ : OptionsM).south = some (-90) ∧
    (⟨false, ["in.png"], "out", DatumOverride.none, none, some 45, some (-90),
        some 180, some (-180), false, true, Mode.kml, none⟩ : OptionsM).east = some 180 ∧
    (⟨false, ["in.png"], "out", DatumOverride.none, none, some 45, some (-90),
        some 180, some (-180), false, true, Mode.kml, none⟩ : OptionsM).west = some (-180) ∧
    (⟨false, ["in.png"], "out", DatumOverride.none, none, some 45, some (-90),
        some 180, some (-180), false, true, Mode.kml, none⟩ : OptionsM).manual = true ∧
    ((⟨false, ["in.png"], "out", DatumOverride.none, none, some 45, some 10,
        some 20, some 30, false, false, Mode.kml, none⟩ : OptionsM).global = false →
      (⟨false, ["in.png"], "out", DatumOverride.none, none, some 45, some (-90),
        some 180, some (-180), false, true, Mode.kml, none⟩ : OptionsM).north =
      (⟨false, ["in.png"], "out", DatumOverride.none, none, some 45, some 10,
        some 20, some 30, false, false, Mode.kml, none⟩ : OptionsM).north) ∧
    ((⟨false, ["in.png"], "out", DatumOverride.none, none, some 45, some 10,
        some 20, some 30, false, false, Mode.kml, none⟩ : OptionsM).global = true →
      (⟨false, ["in.png"], "out", DatumOverride.none, none, some 45, some (-90),
        some 180, some (-180), false, true, Mode.kml, none⟩ : OptionsM).north = some 90) :=
  validate_manual_overwrites (fun s => s)
    ⟨false, ["in.png"], "out", DatumOverride.none, none, some 45, some 10,
      some 20, some 30, false, false, Mode.kml, none⟩
    ⟨false, ["in.png"], "out", DatumOverride.none, none, some 45, some (-90),
      some 180, some (-180), false, true, Mode.kml, none⟩
    rfl (Or.inr (Or.inl rfl))

/-! C10: pixel rescale discards the nodata mask. -/

/-- C10: when a pixel scale or offset is configured, the view
composited for a source is rebuilt from a fresh disk read, so
nodata-to-alpha masking is absent from it even when a nodata value is
configured; without normalization the result is exactly the warped
rescale of the fresh read. -/
theorem rescale_discards_mask (nodata pixel_scale pixel_offset : Option ℚ)
    (normalize : Bool) (lo hi : ℚ) (filename : String) (global : Bool)
    (h : pixel_scale.isSome = true ∨ pixel_offset.isSome = true) :
    hasMask (buildSource nodata pixel_scale pixel_offset normalize lo hi filename global)
      = false ∧
    (normalize = false →
      buildSource nodata pixel_scale pixel_offset normalize lo hi filename global =
        ViewExpr.warped (ViewExpr.rescaleCast (ViewExpr.diskRead filename)
          (pixel_scale.getD 1) (pixel_offset.getD 0)) global) := by
  have hcond : pixel_scale.isSome = true ∨ pixel_offset.isSome = true := h
  constructor
  · cases hn : normalize <;>
      simp [buildSource, hasMask, hn, if_pos hcond]
  · intro hn
    simp [buildSource, hn, if_pos hcond]

/-- Witness for the C10 theorem at a concrete input. -/
theorem rescale_discards_mask_witness :
    hasMask (buildSource (some 0) (some 2) none false 0 1 "img.tif" false) = false ∧
    (false = false →
      buildSource (some 0) (some 2) none false 0 1 "img.tif" false =
        ViewExpr.warped (ViewExpr.rescaleCast (ViewExpr.diskRead "img.tif")
          ((some (2 : ℚ)).getD 1) ((none : Option ℚ).getD 0)) false) :=
  rescale_discards_mask (some 0) (some 2) none false 0 1 "img.tif" false (Or.inl rfl)

/-! C6: data bounding box. -/

/-- C6: (1) for KML and Gigapan the data bbox, translated back to
absolute coordinates by the min corner of the total bbox that the
prepare step re-based the canvas to, is exactly the raw composite bbox
cropped to the total bbox; (2) for the other georeferenced profiles
the data bbox is the raw bbox with its min corner snapped down to a
tile_size multiple and its extent rounded up to a tile_size multiple,
then cropped to the total bbox: the snapped corner is the greatest
tile multiple not above the raw corner and the extent the least tile
multiple not below the raw extent. -/
theorem data_bbox_spec :
    (∀ raw total_bbox : BBoxI,
      (dataBBoxKmlGigapan raw total_bbox).translate total_bbox.minx total_bbox.miny =
        raw.crop total_bbox) ∧
    (∀ (tile_size : Int) (raw total_bbox : BBoxI), 0 < tile_size →
      (dataBBoxOther tile_size raw total_bbox =
        (BBoxI.mk4 ((raw.minx / tile_size) * tile_size)
                   ((raw.miny / tile_size) * tile_size)
                   ((-((-raw.width) / tile_size)) * tile_size)
                   ((-((-raw.height) / tile_size)) * tile_size)).crop total_bbox) ∧
      (tile_size ∣ (raw.minx / tile_size) * tile_size ∧
        (raw.minx / tile_size) * tile_size ≤ raw.minx ∧
        raw.minx < (raw.minx / tile_size) * tile_size + tile_size) ∧
      (tile_size ∣ (raw.miny / tile_size) * tile_size ∧
        (raw.miny / tile_size) * tile_size ≤ raw.miny ∧
        raw.miny < (raw.miny / tile_size) * tile_size + tile_size) ∧
      (tile_size ∣ (-((-raw.width) / tile_size)) * tile_size ∧
        raw.width ≤ (-((-raw.width) / tile_size)) * tile_size ∧
        (-((-raw.width) / tile_size)) * tile_size < raw.width + tile_size) ∧
      (tile_size ∣ (-((-raw.height) / tile_size)) * tile_size ∧
        raw.height ≤ (-((-raw.height) / tile_size)) * tile_size ∧
        (-((-raw.height) / tile_size)) * tile_size < raw.height + tile_size)) := by
  have hfloor : ∀ a t : Int, 0 < t → (a / t) * t ≤ a ∧ a < (a / t) * t + t := by
    intro a t ht
    have h1 := Int.emod_nonneg a (show t ≠ 0 by omega)
    have h2 := Int.emod_lt_of_pos a ht
    have h3 := Int.ediv_add_emod a t
    constructor
    · rw [mul_comm]; omega
    · rw [mul_comm]; omega
  have hceil : ∀ a t : Int, 0 < t →
      a ≤ (-((-a) / t)) * t ∧ (-((-a) / t)) * t < a + t := by
    intro a t ht
    obtain ⟨c1, c2⟩ := hfloor (-a) t ht
    have hn : (-((-a) / t)) * t = -(((-a) / t) * t) := by ring
    constructor
    · omega
    · omega
  constructor
  · intro raw total_bbox
    simp only [dataBBoxKmlGigapan, preparedBBox, BBoxI.translate, BBoxI.crop,
      BBoxI.mk4, BBoxI.width, BBoxI.height, BBoxI.mk.injEq]
    refine ⟨?_, ?_, ?_, ?_⟩ <;> omega
  · intro tile_size raw total_bbox ht
    exact ⟨rfl,
      ⟨dvd_mul_left tile_size _, (hfloor raw.minx tile_size ht).1,
        (hfloor raw.minx tile_size ht).2⟩,
      ⟨dvd_mul_left tile_size _, (hfloor raw.miny tile_size ht).1,
        (hfloor raw.miny tile_size ht).2⟩,
      ⟨dvd_mul_left tile_size _, (hceil raw.width tile_size ht).1,
        (hceil raw.width tile_size ht).2⟩,
      ⟨dvd_mul_left tile_size _, (hceil raw.height tile_size ht).1,
        (hceil raw.height tile_size ht).2⟩⟩

/-- Witness for the C6 theorem at a concrete input. -/
theorem data_bbox_spec_witness :
    dataBBoxOther 256 ⟨100, 50, 400, 300⟩ ⟨0, 0, 1024, 1024⟩ =
      (BBoxI.mk4 (((100 : Int) / 256) * 256) (((50 : Int) / 256) * 256)
                 ((-((-(300 : Int)) / 256)) * 256)
                 ((-((-(250 : Int)) / 256)) * 256)).crop ⟨0, 0, 1024, 1024⟩ :=
  ((data_bbox_spec.2 256 ⟨100, 50, 400, 300⟩ ⟨0, 0, 1024, 1024⟩ (by decide)).1)

end Image2Qtree
